import Mathlib

/-!
Shallow embedding of `src/controllers/configmap_controller.go`
(windows-machine-config-operator, ConfigMapReconciler) and proofs of the
frozen claims about it.

Conventions:
  * Go maps (ConfigMap data, node annotation maps) are modelled as
    association lists `List (String × String)`; iteration order of a Go map
    is pseudo-random, so every theorem is stated for an arbitrary list order.
  * Fallible Go code returns `Except`; a Go runtime panic (out-of-range
    index) is modelled by an `Option` wrapper whose `none` means "panics".
  * External collaborators (DNS, signer, configureInstance,
    deconfigureInstance, Prometheus, the k8s client) are oracles passed in
    as parameters; each call made is recorded as an event in a trace.
-/

namespace WMCO

/-- `InstanceConfigMap` from the source: the name of the ConfigMap where VMs
to be configured should be described. -/
def InstanceConfigMap : String := "windows-instances"

/-- The key of the BYOH membership-marker node entry
(`BYOHAnnotation` in the source). -/
def byohKey : String := "windowsmachineconfig.openshift.io/byoh"

/-- The key of the username node entry (`UsernameAnnotation` in the source). -/
def usernameKey : String := "windowsmachineconfig.openshift.io/username"

/-- Modelled from the spec: the "configuration completed" marker key
(`nodeconfig.VersionAnnotation`, defined in `pkg/nodeconfig` which is not
under `src/`; only its key identity matters to the controller logic). -/
def versionKey : String := "windowsmachineconfig.openshift.io/version"

/-! ## Model of Go `net.ParseIP` (net/ip.go, as called by `validateAddress`)

`validateAddress` calls `net.ParseIP` and `IP.To4`.  These live in Go's
standard library; they are embedded here following net/ip.go so that the
IPv4/IPv6 branch behaviour of `validateAddress` is faithful. -/

/-- Go `dtoi`: reads a decimal prefix; `none` when there is no digit or the
value reaches `big = 0xFFFFFF`.  Returns (value, chars consumed). -/
def dtoiGo : List Char → Nat → Nat → Option (Nat × Nat)
  | [], n, i => some (n, i)
  | ch :: rest, n, i =>
    if '0' ≤ ch ∧ ch ≤ '9' then
      let n' := n * 10 + (ch.toNat - '0'.toNat)
      if n' ≥ 0xFFFFFF then none else dtoiGo rest n' (i + 1)
    else some (n, i)

/-- Go `dtoi` entry point: fails when zero digits were consumed. -/
def dtoi (s : List Char) : Option (Nat × Nat) :=
  match dtoiGo s 0 0 with
  | none => none
  | some (n, i) => if i = 0 then none else some (n, i)

/-- Hexadecimal value of one character, as accepted by Go `xtoi`. -/
def hexVal (ch : Char) : Option Nat :=
  if '0' ≤ ch ∧ ch ≤ '9' then some (ch.toNat - '0'.toNat)
  else if 'a' ≤ ch ∧ ch ≤ 'f' then some (ch.toNat - 'a'.toNat + 10)
  else if 'A' ≤ ch ∧ ch ≤ 'F' then some (ch.toNat - 'A'.toNat + 10)
  else none

/-- Go `xtoi` worker: reads a hexadecimal prefix with the `big` cutoff. -/
def xtoiGo : List Char → Nat → Nat → Option (Nat × Nat)
  | [], n, i => some (n, i)
  | ch :: rest, n, i =>
    match hexVal ch with
    | none => some (n, i)
    | some d =>
      let n' := n * 16 + d
      if n' ≥ 0xFFFFFF then none else xtoiGo rest n' (i + 1)

/-- Go `xtoi` entry point: fails when zero digits were consumed. -/
def xtoi (s : List Char) : Option (Nat × Nat) :=
  match xtoiGo s 0 0 with
  | none => none
  | some (n, i) => if i = 0 then none else some (n, i)

/-- Go `parseIPv4`, one field plus the remaining `k` dot-separated fields:
each field is a decimal number ≤ 255; the final field must end the string. -/
def parseV4Fields : Nat → List Char → Option (List Nat)
  | 0, s =>
    match dtoi s with
    | none => none
    | some (n, c) =>
      if n > 255 then none
      else if s.drop c = [] then some [n] else none
  | k + 1, s =>
    match dtoi s with
    | none => none
    | some (n, c) =>
      if n > 255 then none
      else
        match s.drop c with
        | '.' :: r2 => (parseV4Fields k r2).map (n :: ·)
        | _ => none

/-- Go `parseIPv4`: four dot-separated decimal fields, nothing left over. -/
def parseIPv4 (s : List Char) : Option (List Nat) :=
  parseV4Fields 3 s

/-- One pass of the group-reading loop of Go `parseIPv6`.  The state is the
bytes emitted so far (`acc`), the ellipsis byte position if one was seen
(`ell`), and the unread input.  `none` is a parse failure; otherwise the
loop exits returning the final state and the unread remainder.  The fuel
only bounds the iteration count (each iteration emits ≥ 2 bytes, and the
loop runs while fewer than 16 bytes were emitted, so fuel 9 is never
exhausted). -/
def v6loop : Nat → List Char → List Nat → Option Nat →
    Option (List Nat × Option Nat × List Char)
  | 0, _, _, _ => none
  | fuel + 1, s, acc, ell =>
    if acc.length ≥ 16 then some (acc, ell, s)
    else
      match xtoi s with
      | none => none
      | some (n, c) =>
        if n > 0xFFFF then none
        else if s[c]? = some '.' then
          if ell = none ∧ acc.length ≠ 12 then none
          else if acc.length + 4 > 16 then none
          else
            match parseIPv4 s with
            | none => none
            | some b4 => some (acc ++ b4, ell, [])
        else
          let acc' := acc ++ [n / 256, n % 256]
          let s' := s.drop c
          if s' = [] then some (acc', ell, [])
          else if s'.head? ≠ some ':' ∨ s'.length = 1 then none
          else
            let s'' := s'.drop 1
            if s''.head? = some ':' then
              if ell ≠ none then none
              else
                let s3 := s''.drop 1
                if s3 = [] then some (acc', some acc'.length, [])
                else v6loop fuel s3 acc' (some acc'.length)
            else v6loop fuel s'' acc' ell

/-- Post-loop part of Go `parseIPv6`: the input must be fully consumed; a
short result is completed by expanding the ellipsis with zeros; a full
result must not also carry an ellipsis. -/
def v6finish : Option (List Nat × Option Nat × List Char) → Option (List Nat)
  | none => none
  | some (acc, ell, rest) =>
    if rest ≠ [] then none
    else if acc.length < 16 then
      match ell with
      | none => none
      | some e => some (acc.take e ++ List.replicate (16 - acc.length) 0 ++ acc.drop e)
    else if ell ≠ none then none
    else some acc

/-- Go `parseIPv6`: optional leading `::` then the group loop. -/
def parseIPv6 (s : List Char) : Option (List Nat) :=
  match s with
  | ':' :: ':' :: rest =>
    if rest = [] then some (List.replicate 16 0)
    else v6finish (v6loop 9 rest [] (some 0))
  | _ => v6finish (v6loop 9 s [] none)

/-- Index of the last occurrence of `ch` in `s`, if any. -/
def lastIdxOf (ch : Char) (s : List Char) : Option Nat :=
  ((List.range s.length).filter fun i => s[i]? = some ch).getLast?

/-- Go `parseIPv6Zone`: an IPv6 scoped-zone suffix after the last `%` (at a
positive index) is stripped before parsing. -/
def parseIPv6Zone (s : List Char) : Option (List Nat) :=
  match lastIdxOf '%' s with
  | some i => if i > 0 then parseIPv6 (s.take i) else parseIPv6 s
  | none => parseIPv6 s

/-- A parsed Go IP value: 4-byte or 16-byte form. -/
inductive IP
  | v4 (bytes : List Nat)
  | v6 (bytes : List Nat)
deriving DecidableEq, Repr

/-- Go `net.ParseIP`: the first `.` or `:` in the string selects the IPv4 or
the IPv6 grammar; a string containing neither is not an IP literal. -/
def parseIP (s : String) : Option IP :=
  match s.toList.find? fun ch => ch = '.' ∨ ch = ':' with
  | some '.' => (parseIPv4 s.toList).map .v4
  | some ':' => (parseIPv6Zone s.toList).map .v6
  | _ => none

/-- Go `IP.To4`: the 4-byte form of an IP, available for a 4-byte value and
for a 16-byte value with the IPv4-mapped prefix (ten zero bytes then
`0xff 0xff`). -/
def IP.to4 : IP → Option (List Nat)
  | .v4 b => some b
  | .v6 b =>
    if b.take 10 = List.replicate 10 0 ∧ b[10]? = some 255 ∧ b[11]? = some 255
    then some (b.drop 12) else none

/-! ## `validateAddress` (lines 134-153) -/

/-- The failure reasons of `validateAddress`: IPv6 rejection
("ipv6 is not supported"), a DNS lookup error ("error looking up DNS"), and
an empty resolution result ("DNS did not resolve to an address"). -/
inductive AddrErr
  | unsupportedFamily
  | dnsLookupError
  | dnsNoAddress
deriving DecidableEq, Repr

/-- The DNS oracle: the outcome of `net.LookupHost` for a given name. -/
def Dns : Type := String → Except Unit (List String)

/-- `validateAddress`: an address parsing as an IP is accepted exactly when
its 4-byte form exists, otherwise rejected as IPv6; a non-IP address is
resolved via DNS and must yield at least one address. -/
def validateAddress (lookup : Dns) (address : String) : Except AddrErr Unit :=
  match parseIP address with
  | some parsedAddr =>
    if (parsedAddr.to4).isSome then .ok ()
    else .error .unsupportedFamily
  | none =>
    match lookup address with
    | .error _ => .error .dnsLookupError
    | .ok addressList =>
      if addressList.length = 0 then .error .dnsNoAddress else .ok ()

/-! ## `parseHosts` (lines 115-132) -/

/-- `instances.InstanceInfo` restricted to the fields this controller uses
(`NewInstanceInfo(address, username, "")`). -/
structure InstanceInfo where
  address : String
  username : String
deriving DecidableEq, Repr

/-- Go `strings.SplitN(data, "=", 2)` at the character level: the input
split at its first `=`, when one exists. -/
def splitEqChars : List Char → List Char × Option (List Char)
  | [] => ([], none)
  | ch :: r =>
    if ch = '=' then ([], some r)
    else (ch :: (splitEqChars r).1, (splitEqChars r).2)

/-- Go `strings.SplitN(data, "=", 2)`: one piece when the separator is
absent, otherwise the part before the first `=` and everything after it. -/
def splitN2 (s : String) : List String :=
  match splitEqChars s.toList with
  | (before, none) => [String.mk before]
  | (before, some after) => [String.mk before, String.mk after]

/-- The errors of `parseHosts`: an address rejected by `validateAddress`
("invalid address %s"), or a value of the wrong shape
("data for entry %s has an incorrect format").  Both carry the offending
address. -/
inductive ParseErr
  | invalidAddress (addr : String) (e : AddrErr)
  | incorrectFormat (addr : String)
deriving DecidableEq, Repr

/-- The address a `ParseErr` identifies. -/
def ParseErr.addr : ParseErr → String
  | .invalidAddress a _ => a
  | .incorrectFormat a => a

/-- `parseHosts`: each ConfigMap entry's key is validated as an address and
its value split at `=`; the guard `len(splitData) == 0 || splitData[0] !=
"username"` rejects other first tokens, and the subsequent `splitData[1]`
access is an out-of-range panic (modelled as `none`) when the split has a
single piece, i.e. when the value is exactly `username` with no `=`. -/
def parseHosts (lookup : Dns) :
    List (String × String) → Option (Except ParseErr (List InstanceInfo))
  | [] => some (.ok [])
  | (address, data) :: rest =>
    match validateAddress lookup address with
    | .error e => some (.error (.invalidAddress address e))
    | .ok _ =>
      let splitData := splitN2 data
      if splitData.length = 0 ∨ splitData.head? ≠ some "username" then
        some (.error (.incorrectFormat address))
      else
        match splitData[1]? with
        | none => none
        | some uname =>
          match parseHosts lookup rest with
          | none => none
          | some (.error e) => some (.error e)
          | some (.ok hs) => some (.ok (⟨address, uname⟩ :: hs))

/-! ## Nodes and the lookup helpers (lines 216-279) -/

/-- A cluster Node restricted to the fields this controller reads: its name,
its annotation map (`anns`), and the addresses in its status. -/
structure Node where
  name : String
  anns : List (String × String)
  addresses : List String
deriving DecidableEq, Repr

/-- Lookup in an annotation map. -/
def annLookup (anns : List (String × String)) (k : String) : Option String :=
  (anns.find? fun p => p.1 == k).map (·.2)

/-- `node.GetAnnotations()[BYOHAnnotation] == "true"` (line 172). -/
def isByohTrue (n : Node) : Bool :=
  annLookup n.anns byohKey == some "true"

/-- The BYOH node scan of `reconcileNodes` (lines 170-175): the nodes whose
membership marker is the string "true". -/
def byohTrueNodes (nodes : List Node) : List Node :=
  nodes.filter isByohTrue

/-- The presence test `_, present := node.Annotations[BYOHAnnotation]` used
by `deconfigureInstances` (line 241): marker present with any value. -/
def byohPresent (n : Node) : Bool :=
  (annLookup n.anns byohKey).isSome

/-- The version-annotation presence test of `ensureInstanceIsConfigured`
(line 221). -/
def hasVersionAnn (n : Node) : Bool :=
  (annLookup n.anns versionKey).isSome

/-- `findNode`: the first node, in list order, one of whose addresses equals
the given address. -/
def findNode (address : String) (nodes : List Node) : Option Node :=
  nodes.find? fun n => n.addresses.contains address

/-- `hasAssociatedInstance`: the node has some address equal to the address
of some instance in the slice. -/
def hasAssociatedInstance (node : Node) (instancesL : List InstanceInfo) : Bool :=
  instancesL.any fun inst => node.addresses.contains inst.address

/-- The skip decision of `ensureInstanceIsConfigured` (lines 218-226): an
address-matching node was found and it carries the version annotation, so
the function returns without calling `configureInstance`. -/
def instanceSkips (inst : InstanceInfo) (nodes : List Node) : Bool :=
  match findNode inst.address nodes with
  | some node => hasVersionAnn node
  | none => false

/-! ## The decision list of one pass (diff engine view of lines 156-254)

`passActions` records, per object, which of the three decisions the pass
takes: `configure` for a desired host reaching `configureInstance`, `skip`
for a desired host whose matching node carries the version annotation, and
`deconfigure` for a node the deconfigure loop removes.  It follows the
branch structure of `reconcileNodes`/`ensureInstanceIsConfigured`/
`deconfigureInstances` with all collaborator calls succeeding. -/

/-- One pass decision. -/
inductive Action
  | configure (addr : String)
  | skip (addr : String)
  | deconfigure (nodeName : String)
deriving DecidableEq, Repr

/-- The target of a decision: a desired-set address (left) or a
cluster-member name (right). -/
def Action.tgt : Action → String ⊕ String
  | .configure a => .inl a
  | .skip a => .inl a
  | .deconfigure n => .inr n

/-- The Configure/Skip decision for one desired host
(`ensureInstanceIsConfigured`, lines 216-234). -/
def hostDecision (h : InstanceInfo) (nodes : List Node) : Action :=
  if instanceSkips h nodes then .skip h.address else .configure h.address

/-- The nodes the deconfigure loop removes (`deconfigureInstances`,
lines 238-254): marker-present nodes with no associated instance. -/
def staleNodes (hosts : List InstanceInfo) (nodes : List Node) : List Node :=
  nodes.filter fun n => byohPresent n && !(hasAssociatedInstance n hosts)

/-- All decisions of one pass over parsed hosts and listed nodes, including
the empty-empty short-circuit of lines 177-181. -/
def passActions (hosts : List InstanceInfo) (nodes : List Node) : List Action :=
  if hosts = [] ∧ byohTrueNodes nodes = [] then []
  else
    hosts.map (hostDecision · nodes) ++
      (staleNodes hosts nodes).map fun n => .deconfigure n.name

/-! ## Trace model of `reconcileNodes` (lines 156-254)

The collaborators are oracles in `Env`; every collaborator call made by the
pass is recorded as an event, in call order. -/

/-- Outcomes of the external collaborators of one pass. -/
structure Env where
  lookup : Dns
  signerOk : Bool
  configureOk : String → Bool
  deconfigureOk : String → Bool
  prometheusOk : Bool

/-- One collaborator call of the pass: the signer load (line 184), a
`configureInstance` call (line 228) with the address and username it is
given, a `deconfigureInstance` call (line 249) with the node's name, and the
Prometheus configuration (line 210). -/
inductive Ev
  | signerCreate
  | configure (addr : String) (username : String)
  | deconfigure (nodeName : String)
  | prometheusConfigure
deriving DecidableEq, Repr

/-- The error of one pass, each wrapping the identity the Go error wraps. -/
inductive RErr
  | parseHostsErr (e : ParseErr)
  | signerErr
  | configureErr (addr : String)
  | deconfigureErr (nodeName : String)
  | prometheusErr
deriving DecidableEq, Repr

/-- The per-host loop of `reconcileNodes` (lines 195-202): each host is
ensured in order; a skip makes no call; a failing `configureInstance`
returns immediately with the host's address wrapped. -/
def configureLoop (env : Env) (nodes : List Node) :
    List InstanceInfo → List Ev × Option RErr
  | [] => ([], none)
  | h :: rest =>
    if instanceSkips h nodes then configureLoop env nodes rest
    else if env.configureOk h.address then
      (.configure h.address h.username :: (configureLoop env nodes rest).1,
        (configureLoop env nodes rest).2)
    else ([.configure h.address h.username], some (.configureErr h.address))

/-- `deconfigureInstances` (lines 238-254): every node without the BYOH
marker, or with an associated instance, is passed over; the others are
deconfigured in order, stopping at the first failure with the node's name
wrapped. -/
def deconfigureInstances (env : Env) (hosts : List InstanceInfo) :
    List Node → List Ev × Option RErr
  | [] => ([], none)
  | node :: rest =>
    if !byohPresent node then deconfigureInstances env hosts rest
    else if hasAssociatedInstance node hosts then deconfigureInstances env hosts rest
    else if env.deconfigureOk node.name then
      (.deconfigure node.name :: (deconfigureInstances env hosts rest).1,
        (deconfigureInstances env hosts rest).2)
    else ([.deconfigure node.name], some (.deconfigureErr node.name))

/-- The part of `reconcileNodes` after its hosts parsed (lines 164-213):
scan the BYOH nodes, short-circuit the empty-empty pass, create the signer,
run the configure loop (fail fast), then the deconfigure loop, then
Prometheus. -/
def reconcileNodesBody (env : Env) (hosts : List InstanceInfo)
    (nodes : List Node) : List Ev × Except RErr Unit :=
  if hosts = [] ∧ byohTrueNodes nodes = [] then ([], .ok ())
  else if !env.signerOk then ([.signerCreate], .error .signerErr)
  else
    match (configureLoop env nodes hosts).2 with
    | some e => (.signerCreate :: (configureLoop env nodes hosts).1, .error e)
    | none =>
      match (deconfigureInstances env hosts nodes).2 with
      | some e =>
        (.signerCreate :: (configureLoop env nodes hosts).1 ++
          (deconfigureInstances env hosts nodes).1, .error e)
      | none =>
        if env.prometheusOk then
          (.signerCreate :: (configureLoop env nodes hosts).1 ++
            (deconfigureInstances env hosts nodes).1 ++ [.prometheusConfigure],
            .ok ())
        else
          (.signerCreate :: (configureLoop env nodes hosts).1 ++
            (deconfigureInstances env hosts nodes).1 ++ [.prometheusConfigure],
            .error .prometheusErr)

/-- `reconcileNodes` (lines 156-214): parse the hosts (propagating the
parse error, or the panic as `none`), then run the rest of the pass. -/
def reconcileNodes (env : Env) (configMapData : List (String × String))
    (nodes : List Node) : Option (List Ev × Except RErr Unit) :=
  match parseHosts env.lookup configMapData with
  | none => none
  | some (.error e) => some ([], .error (.parseHostsErr e))
  | some (.ok hosts) => some (reconcileNodesBody env hosts nodes)

/-! ## Tracking-resource bootstrap: `ensure` (lines 317-337) and
`EnsureWindowsInstancesConfigMap` (lines 339-368)

The k8s client is an oracle: the outcome of each `Get` and of the `Create`
is a parameter, and the calls issued are recorded. -/

/-- A k8s API error as this code distinguishes it: the not-found kind
(`k8sapierrors.IsNotFound`) versus anything else. -/
inductive K8sErr
  | notFound
  | other (code : Nat)
deriving DecidableEq, Repr

/-- A ConfigMap object restricted to what this code touches. -/
structure CMObj where
  ns : String
  name : String
  data : List (String × String)
deriving DecidableEq, Repr

/-- A k8s client call issued by the bootstrap code. -/
inductive ClientOp
  | get (ns name : String)
  | create (cm : CMObj)
deriving DecidableEq, Repr

/-- `ensure`: get the ConfigMap; on the not-found error kind, create an
empty one with that identity and re-read it; on success return what was
read; any other get failure is returned unchanged. -/
def ensure (g1 : Except K8sErr CMObj) (createRes : Option K8sErr)
    (g2 : Except K8sErr CMObj) (ns name : String) :
    List ClientOp × Except K8sErr CMObj :=
  match g1 with
  | .ok cm => ([.get ns name], .ok cm)
  | .error e =>
    match e with
    | .notFound =>
      let created : CMObj := ⟨ns, name, []⟩
      match createRes with
      | some ce => ([.get ns name, .create created], .error ce)
      | none =>
        match g2 with
        | .ok cm2 => ([.get ns name, .create created, .get ns name], .ok cm2)
        | .error e2 => ([.get ns name, .create created, .get ns name], .error e2)
    | .other c => ([.get ns name], .error (.other c))

/-- A deterministic store semantics for the client: `Get` finds exactly what
the store holds, and `Create` inserts the empty object.  `ensureStore` runs
`ensure` against such a store and yields the store after the call. -/
def storeGet : Option CMObj → Except K8sErr CMObj
  | some cm => .ok cm
  | none => .error .notFound

/-- `ensure` wired to the deterministic store. -/
def ensureStore (ns name : String) (store : Option CMObj) :
    Option CMObj × (List ClientOp × Except K8sErr CMObj) :=
  match store with
  | some _ => (store, ensure (storeGet store) none (storeGet store) ns name)
  | none =>
    let store' := some (⟨ns, name, []⟩ : CMObj)
    (store', ensure (storeGet store) none (storeGet store') ns name)

/-- The errors of `EnsureWindowsInstancesConfigMap`: a nil rest config, a
clientset construction failure, or a k8s API error. -/
inductive StartupErr
  | nilConfig
  | clientCreate (code : Nat)
  | k8s (e : K8sErr)
deriving DecidableEq, Repr

/-- `EnsureWindowsInstancesConfigMap`: the startup-time direct-path
bootstrap.  A nil config is an error; the ConfigMap is read by the typed
client; only the not-found kind leads to creating the empty ConfigMap with
the `InstanceConfigMap` identity; there is no re-read, and only an error (or
success) is returned. -/
def EnsureWindowsInstancesConfigMap (cfgPresent : Bool)
    (clientErr : Option Nat) (g1 : Except K8sErr CMObj)
    (createRes : Option K8sErr) (ns : String) :
    List ClientOp × Option StartupErr :=
  if !cfgPresent then ([], some .nilConfig)
  else
    match clientErr with
    | some c => ([], some (.clientCreate c))
    | none =>
      match g1 with
      | .ok _ => ([.get ns InstanceConfigMap], none)
      | .error e =>
        match e with
        | .notFound =>
          let created : CMObj := ⟨ns, InstanceConfigMap, []⟩
          match createRes with
          | some ce => ([.get ns InstanceConfigMap, .create created], some (.k8s ce))
          | none => ([.get ns InstanceConfigMap, .create created], none)
        | .other c =>
          ([.get ns InstanceConfigMap], some (.k8s (.other c)))

/-! ## Event filter (lines 281-315) -/

/-- The identity and annotation map of an event's object, as the predicates
read it. -/
structure ObjMeta where
  ns : String
  name : String
  anns : List (String × String)
deriving DecidableEq, Repr

/-- A reconcile request's namespaced name. -/
structure Request where
  ns : String
  name : String
deriving DecidableEq, Repr

/-- `isValidConfigMap`: the object is the tracking ConfigMap, i.e. its
namespace is the watch namespace and its name is `windows-instances`. -/
def isValidConfigMap (watchNamespace : String) (o : ObjMeta) : Bool :=
  o.ns == watchNamespace && o.name == InstanceConfigMap

/-- The `CreateFunc` of the ConfigMap predicate (lines 291-293). -/
def configMapCreateTrigger (watchNamespace : String) (o : ObjMeta) : Bool :=
  isValidConfigMap watchNamespace o

/-- The `UpdateFunc` of the ConfigMap predicate (lines 294-296): applied to
the new object. -/
def configMapUpdateTrigger (watchNamespace : String) (oNew : ObjMeta) : Bool :=
  isValidConfigMap watchNamespace oNew

/-- The `DeleteFunc` of the ConfigMap predicate (lines 297-303): a delete
whose `DeleteStateUnknown` flag is set is dropped; otherwise the identity
check applies. -/
def configMapDeleteTrigger (watchNamespace : String) (o : ObjMeta)
    (deleteStateUnknown : Bool) : Bool :=
  if deleteStateUnknown then false else isValidConfigMap watchNamespace o

/-- `mapToConfigMap`: every watched Node event is mapped, regardless of the
object, to the single request naming the tracking ConfigMap. -/
def mapToConfigMap (watchNamespace : String) (_o : ObjMeta) : List Request :=
  [⟨watchNamespace, InstanceConfigMap⟩]

/-- Modelled from the spec: `windowsNodePredicate` (defined in another file
of this repository, not under `src/`) — the Node watch passes exactly the
member events whose membership marker equals the requested selector, and
`SetupWithManager` instantiates it with `true`. -/
def windowsNodePredicate (byoh : Bool) (o : ObjMeta) : Bool :=
  annLookup o.anns byohKey == some (if byoh then "true" else "false")

/-! ## Generic helpers -/

/-- Decidable equality of `Except` results, used to evaluate the model on
concrete inputs. -/
instance {ε α : Type _} [DecidableEq ε] [DecidableEq α] :
    DecidableEq (Except ε α) := fun x y =>
  match x, y with
  | .ok a, .ok b =>
    if h : a = b then .isTrue (by rw [h]) else .isFalse (by simp [h])
  | .error e, .error f =>
    if h : e = f then .isTrue (by rw [h]) else .isFalse (by simp [h])
  | .ok _, .error _ => .isFalse (by simp)
  | .error _, .ok _ => .isFalse (by simp)

/-- A DNS oracle answering every name with one resolved address. -/
def dnsOne : Dns := fun _ => .ok ["192.0.2.1"]

/-- A DNS oracle failing every lookup. -/
def dnsFail : Dns := fun _ => .error ()

/-- An environment whose collaborators all succeed. -/
def envAllOk : Env := ⟨dnsOne, true, fun _ => true, fun _ => true, true⟩

/-- An environment whose `configureInstance` fails for every address other
than `10.0.0.5`. -/
def envConfFail : Env := ⟨dnsOne, true, fun a => a == "10.0.0.5", fun _ => true, true⟩

/-- An environment whose `deconfigureInstance` fails exactly for the node
named `m1`. -/
def envDeconFail : Env := ⟨dnsOne, true, fun _ => true, fun nm => nm != "m1", true⟩

/-! ## Theorems -/

/-- C10: the claim says `parseHosts` is total because the guard rejects
every value without a second `=`-token.  It is not: the value literally
equal to `username` (no `=`) passes the guard — the split is `["username"]`,
whose length is 1 and whose first token is `username` — and the
`splitData[1]` access is then out of range (a runtime panic, `none` in this
model).  This contradicts the documented fail-with-error policy for
malformed entries, so it is a bug in the code's guard (`len(splitData) == 0`
can never hold for `SplitN(..., 2)`; the intended check is a length below
2). -/
theorem wmco_c10_username_value_panics :
    parseHosts dnsOne [("10.0.0.5", "username")] = none ∧
    splitN2 "username" = ["username"] := by decide

/-- C7: when the parsed desired set is empty and no node carries the
membership marker with value true, the pass returns success with an empty
collaborator-call trace: no signer load, no configure/deconfigure call, no
Prometheus configuration. -/
theorem wmco_c7_empty_empty_noop (env : Env) (configMapData : List (String × String))
    (nodes : List Node)
    (hp : parseHosts env.lookup configMapData = some (.ok []))
    (hb : byohTrueNodes nodes = []) :
    reconcileNodes env configMapData nodes = some ([], .ok ()) := by
  unfold reconcileNodes
  rw [hp]
  simp [reconcileNodesBody, hb]

/-- Witness for C7 at a concrete empty ConfigMap and a cluster with one
unmarked node. -/
theorem wmco_c7_empty_empty_noop_witness :
    reconcileNodes envAllOk [] [⟨"worker-1", [], ["10.0.0.9"]⟩] = some ([], .ok ()) :=
  wmco_c7_empty_empty_noop envAllOk [] [⟨"worker-1", [], ["10.0.0.9"]⟩]
    (by decide) (by decide)

/-- C8: the ConfigMap predicate triggers a create/update/delete exactly when
the object's namespace and name are the tracking identity, except that a
delete with `DeleteStateUnknown` set is always dropped; and every Node event
passing the (spec-modelled) membership-marker predicate — indeed every Node
event at all — is mapped to exactly the one request naming the tracking
identity. -/
theorem wmco_c8_event_filter (watchNamespace : String) :
    (∀ o : ObjMeta, configMapCreateTrigger watchNamespace o = true ↔
      (o.ns = watchNamespace ∧ o.name = InstanceConfigMap)) ∧
    (∀ o : ObjMeta, configMapUpdateTrigger watchNamespace o = true ↔
      (o.ns = watchNamespace ∧ o.name = InstanceConfigMap)) ∧
    (∀ (o : ObjMeta) (dsu : Bool), configMapDeleteTrigger watchNamespace o dsu = true ↔
      (dsu = false ∧ o.ns = watchNamespace ∧ o.name = InstanceConfigMap)) ∧
    (∀ o : ObjMeta, windowsNodePredicate true o = true →
      mapToConfigMap watchNamespace o = [⟨watchNamespace, InstanceConfigMap⟩]) ∧
    (∀ o : ObjMeta, mapToConfigMap watchNamespace o = [⟨watchNamespace, InstanceConfigMap⟩]) := by
  refine ⟨?_, ?_, ?_, ?_, ?_⟩
  · intro o
    simp [configMapCreateTrigger, isValidConfigMap, Bool.and_eq_true, beq_iff_eq]
  · intro o
    simp [configMapUpdateTrigger, isValidConfigMap, Bool.and_eq_true, beq_iff_eq]
  · intro o dsu
    cases dsu <;>
      simp [configMapDeleteTrigger, isValidConfigMap, Bool.and_eq_true, beq_iff_eq]
  · intro o _
    rfl
  · intro o
    rfl

/-- Witness for C8: a marked Node event in a concrete namespace maps to the
single tracking-identity request. -/
theorem wmco_c8_event_filter_witness :
    mapToConfigMap "wmco-ns" ⟨"any-ns", "byoh-node", [(byohKey, "true")]⟩ =
      [⟨"wmco-ns", InstanceConfigMap⟩] :=
  (wmco_c8_event_filter "wmco-ns").2.2.2.1
    ⟨"any-ns", "byoh-node", [(byohKey, "true")]⟩ (by decide)

/-- C9: `ensure` returns the resource read when the get succeeds and issues
no create; on the not-found kind it creates the empty resource with the
requested identity, re-reads, and returns the re-read outcome unchanged;
any other get failure propagates unchanged with no create.  Against the
deterministic store, a repeated call never issues a create (idempotent
create-if-absent, never create-or-replace).  The startup-time direct-path
variant obeys the same create-if-absent contract: get success means no
create, not-found means creating the empty resource with the
`windows-instances` identity, and any other failure propagates unchanged. -/
theorem wmco_c9_bootstrap_ensure :
    (∀ (ns nm : String) (cm : CMObj) (cr : Option K8sErr) (g2 : Except K8sErr CMObj),
      ensure (.ok cm) cr g2 ns nm = ([.get ns nm], .ok cm)) ∧
    (∀ (ns nm : String) (g2 : Except K8sErr CMObj),
      ensure (.error .notFound) none g2 ns nm =
        ([.get ns nm, .create ⟨ns, nm, []⟩, .get ns nm], g2)) ∧
    (∀ (ns nm : String) (c : Nat) (cr : Option K8sErr) (g2 : Except K8sErr CMObj),
      ensure (.error (.other c)) cr g2 ns nm = ([.get ns nm], .error (.other c))) ∧
    (∀ (ns nm : String) (store : Option CMObj) (cm : CMObj),
      ClientOp.create cm ∉ (ensureStore ns nm (ensureStore ns nm store).1).2.1) ∧
    (∀ (ns : String) (cm : CMObj) (cr : Option K8sErr),
      EnsureWindowsInstancesConfigMap true none (.ok cm) cr ns =
        ([.get ns InstanceConfigMap], none)) ∧
    (∀ ns : String,
      EnsureWindowsInstancesConfigMap true none (.error .notFound) none ns =
        ([.get ns InstanceConfigMap, .create ⟨ns, InstanceConfigMap, []⟩], none)) ∧
    (∀ (ns : String) (c : Nat) (cr : Option K8sErr),
      EnsureWindowsInstancesConfigMap true none (.error (.other c)) cr ns =
        ([.get ns InstanceConfigMap], some (.k8s (.other c)))) := by
  refine ⟨?_, ?_, ?_, ?_, ?_, ?_, ?_⟩
  · intro ns nm cm cr g2
    rfl
  · intro ns nm g2
    cases g2 <;> rfl
  · intro ns nm c cr g2
    rfl
  · intro ns nm store cm
    cases store <;> simp [ensureStore, storeGet, ensure]
  · intro ns cm cr
    rfl
  · intro ns
    rfl
  · intro ns c cr
    rfl

/-- Helper: `validateAddress` on a string that parses as an IP is decided
solely by the existence of the 4-byte form. -/
theorem validateAddress_of_parse {lk : Dns} {s : String} {pa : IP}
    (h : parseIP s = some pa) :
    validateAddress lk s =
      if pa.to4.isSome then .ok () else .error .unsupportedFamily := by
  unfold validateAddress
  rw [h]

/-- Helper: `validateAddress` on a string that is no IP literal is decided
solely by the DNS lookup. -/
theorem validateAddress_of_parse_none {lk : Dns} {s : String}
    (h : parseIP s = none) :
    validateAddress lk s =
      match lk s with
      | .error _ => .error .dnsLookupError
      | .ok addressList =>
        if addressList.length = 0 then .error .dnsNoAddress else .ok () := by
  unfold validateAddress
  rw [h]

/-- C6 (amended): validation succeeds for every IPv4 literal; it fails with
the unsupported-address-family error for a string parsing as an IPv6
literal only when the literal has no 4-byte (IPv4-mapped) form; any string
that is no IP literal goes to hostname resolution, failing exactly on a
lookup error or an empty result.  Concretely `"::1"` is rejected as
unsupported family and `"999.999.999.999"` is not an IPv4 parse but falls
through to resolution. -/
theorem wmco_c6_validate_address_amended :
    (∀ (lk : Dns) (s : String) (b : List Nat),
      parseIP s = some (.v4 b) → validateAddress lk s = .ok ()) ∧
    (∀ (lk : Dns) (s : String) (pa : IP),
      parseIP s = some pa → pa.to4 = none →
      validateAddress lk s = .error .unsupportedFamily) ∧
    (∀ (lk : Dns) (s : String) (pa : IP),
      parseIP s = some pa → (pa.to4).isSome → validateAddress lk s = .ok ()) ∧
    (∀ (lk : Dns) (s : String),
      parseIP s = none → lk s = .error () → validateAddress lk s = .error .dnsLookupError) ∧
    (∀ (lk : Dns) (s : String),
      parseIP s = none → lk s = .ok [] → validateAddress lk s = .error .dnsNoAddress) ∧
    (∀ (lk : Dns) (s : String) (l : List String),
      parseIP s = none → lk s = .ok l → l ≠ [] → validateAddress lk s = .ok ()) ∧
    (∀ lk : Dns, validateAddress lk "::1" = .error .unsupportedFamily) ∧
    parseIP "999.999.999.999" = none := by
  have h2 : ∀ (lk : Dns) (s : String) (pa : IP),
      parseIP s = some pa → pa.to4 = none →
      validateAddress lk s = .error .unsupportedFamily := by
    intro lk s pa hp h4
    rw [validateAddress_of_parse hp, h4]
    rfl
  refine ⟨?_, h2, ?_, ?_, ?_, ?_, ?_, ?_⟩
  · intro lk s b hp
    rw [validateAddress_of_parse hp]
    rfl
  · intro lk s pa hp h4
    rw [validateAddress_of_parse hp, if_pos h4]
  · intro lk s hp hl
    rw [validateAddress_of_parse_none hp, hl]
  · intro lk s hp hl
    rw [validateAddress_of_parse_none hp, hl]
    rfl
  · intro lk s l hp hl hne
    rw [validateAddress_of_parse_none hp, hl]
    simp [List.length_eq_zero, hne]
  · intro lk
    exact h2 lk "::1" (.v6 [0, 0, 0, 0, 0, 0, 0, 0, 0, 0, 0, 0, 0, 0, 0, 1])
      (by decide) (by decide)
  · decide

/-- Counterexample refuting C6 as stated: `"::ffff:1.2.3.4"` parses as an
IPv6 literal (the 16-byte IPv4-mapped form), yet `validateAddress` accepts
it — even with a DNS oracle that fails every lookup, showing no resolution
is attempted — instead of failing with the unsupported-address-family
error. -/
theorem wmco_c6_counterexample :
    parseIP "::ffff:1.2.3.4" =
      some (.v6 [0, 0, 0, 0, 0, 0, 0, 0, 0, 0, 255, 255, 1, 2, 3, 4]) ∧
    validateAddress dnsFail "::ffff:1.2.3.4" = .ok () := by decide

/-- Witness for C6 at concrete inputs: the IPv4 literal `10.0.0.5` is
accepted, and `999.999.999.999` reaches the DNS oracle and fails with the
lookup error. -/
theorem wmco_c6_validate_address_witness :
    validateAddress dnsFail "10.0.0.5" = .ok () ∧
    validateAddress dnsFail "999.999.999.999" = .error .dnsLookupError :=
  ⟨wmco_c6_validate_address_amended.1 dnsFail "10.0.0.5" [10, 0, 0, 5] (by decide),
   wmco_c6_validate_address_amended.2.2.2.1 dnsFail "999.999.999.999"
     (by decide) (by decide)⟩

/-- Helper: splitting a string whose first `=` separates `l1` from `l2`
yields exactly that decomposition. -/
theorem splitEqChars_append {l1 : List Char} (h : '=' ∉ l1) (l2 : List Char) :
    splitEqChars (l1 ++ '=' :: l2) = (l1, some l2) := by
  induction l1 with
  | nil => simp [splitEqChars]
  | cons c r ih =>
    have hc : ¬c = '=' := fun hcc => h (hcc ▸ List.mem_cons_self c r)
    have hr : '=' ∉ r := fun hm => h (List.mem_cons_of_mem c hm)
    rw [List.cons_append]
    show (if c = '=' then ([], some (r ++ '=' :: l2))
      else (c :: (splitEqChars (r ++ '=' :: l2)).1, (splitEqChars (r ++ '=' :: l2)).2)) =
        (c :: r, some l2)
    rw [if_neg hc, ih hr]

/-- Helper: when the split finds a separator, the input decomposes at its
first `=`. -/
theorem splitEqChars_some :
    ∀ {cs b a : List Char}, splitEqChars cs = (b, some a) →
      cs = b ++ '=' :: a ∧ '=' ∉ b := by
  intro cs
  induction cs with
  | nil => intro b a h; simp [splitEqChars] at h
  | cons c r ih =>
    intro b a h
    by_cases hc : c = '='
    · subst hc
      simp only [splitEqChars, if_pos rfl] at h
      injection h with h1 h2
      injection h2 with h2
      subst h1
      subst h2
      exact ⟨rfl, List.not_mem_nil '='⟩
    · simp only [splitEqChars, if_neg hc] at h
      injection h with h1 h2
      obtain ⟨hr1, hr2⟩ := ih (b := (splitEqChars r).1) (a := a)
        (by rw [← h2])
      constructor
      · rw [← h1, List.cons_append, ← hr1]
      · rw [← h1]
        intro hm
        rcases List.mem_cons.mp hm with hh | ht
        · exact hc hh.symm
        · exact hr2 ht

/-- Helper: the two possible shapes of `splitN2`. -/
theorem splitN2_cases (v : String) :
    (∃ b, splitN2 v = [b]) ∨ ∃ b a, splitN2 v = [b, a] := by
  unfold splitN2
  rcases hsp : splitEqChars v.toList with ⟨b, o⟩
  cases o with
  | none => exact .inl ⟨String.mk b, rfl⟩
  | some a => exact .inr ⟨String.mk b, String.mk a, rfl⟩

/-- Helper: the value splits into exactly `username` and `u` iff it is the
string `username=` followed by `u` (where `u` may itself contain `=`). -/
theorem splitN2_two_iff {v u : String} :
    splitN2 v = ["username", u] ↔ v = "username=" ++ u := by
  have husr : ("username=" ++ u).toList = "username".toList ++ '=' :: u.toList := by
    show "username=".toList ++ u.toList = "username".toList ++ '=' :: u.toList
    rw [show "username=".toList = "username".toList ++ ['='] from by decide,
      List.append_assoc]
    rfl
  constructor
  · intro h
    unfold splitN2 at h
    rcases hsp : splitEqChars v.toList with ⟨b, o⟩
    rw [hsp] at h
    cases o with
    | none => simp at h
    | some a =>
      injection h with h1 h2
      injection h2 with h2
      obtain ⟨hv, _⟩ := splitEqChars_some hsp
      have hb : b = "username".toList := congrArg String.toList h1
      have ha : a = u.toList := congrArg String.toList h2
      have : v.toList = ("username=" ++ u).toList := by
        rw [hv, hb, ha, husr]
      calc v = String.mk v.toList := rfl
        _ = String.mk (("username=" ++ u).toList) := by rw [this]
        _ = "username=" ++ u := rfl
  · intro h
    subst h
    unfold splitN2
    rw [show ("username=" ++ u).toList = "username".toList ++ '=' :: u.toList from husr,
      splitEqChars_append (by decide) u.toList]
    rfl

/-- Helper: a run of `parseHosts` that returns a host list accepted every
entry: each address validated and each value of the shape `username=<u>`. -/
theorem parseHosts_ok_entries {lk : Dns} :
    ∀ {data : List (String × String)} {hs : List InstanceInfo},
    parseHosts lk data = some (.ok hs) →
    ∀ p ∈ data, validateAddress lk p.1 = .ok () ∧ ∃ rest, p.2 = "username=" ++ rest := by
  intro data
  induction data with
  | nil => intro hs _ p hp; simp at hp
  | cons entry rest ih =>
    intro hs h p hp
    obtain ⟨a, v⟩ := entry
    unfold parseHosts at h
    cases hv : validateAddress lk a with
    | error e => rw [hv] at h; simp at h
    | ok _ =>
      rw [hv] at h
      by_cases hg : (splitN2 v).length = 0 ∨ (splitN2 v).head? ≠ some "username"
      · rw [if_pos hg] at h; simp at h
      · rw [if_neg hg] at h
        push_neg at hg
        rcases splitN2_cases v with ⟨b, hb⟩ | ⟨b, a', hba⟩
        · rw [hb] at h; simp at h
        · rw [hba] at h
          have hbu : b = "username" := by
            have := hg.2
            rw [hba] at this
            simpa using this
          simp only [List.getElem?_cons_succ, List.getElem?_cons_zero] at h
          cases hrest : parseHosts lk rest with
          | none => rw [hrest] at h; simp at h
          | some res =>
            rw [hrest] at h
            cases res with
            | error e => simp at h
            | ok hs' =>
              simp only [Option.some.injEq, Except.ok.injEq] at h
              rcases List.mem_cons.mp hp with hph | hpt
              · subst hph
                refine ⟨hv, a', ?_⟩
                exact splitN2_two_iff.mp (hbu ▸ hba)
              · exact ih hrest p hpt

/-- Helper: when `parseHosts` returns an error, the address the error
identifies belongs to an entry of the input that is genuinely offending:
its address fails validation or its value lacks the `username=` shape. -/
theorem parseHosts_error_entry {lk : Dns} :
    ∀ {data : List (String × String)} {e : ParseErr},
    parseHosts lk data = some (.error e) →
    ∃ v, (e.addr, v) ∈ data ∧
      (validateAddress lk e.addr ≠ .ok () ∨ ∀ rest, v ≠ "username=" ++ rest) := by
  intro data
  induction data with
  | nil => intro e h; simp [parseHosts] at h
  | cons entry rest ih =>
    intro e h
    obtain ⟨a, v⟩ := entry
    unfold parseHosts at h
    cases hv : validateAddress lk a with
    | error err =>
      rw [hv] at h
      simp only [Option.some.injEq, Except.error.injEq] at h
      refine ⟨v, ?_, .inl ?_⟩
      · rw [← h]
        exact List.mem_cons_self _ _
      · rw [← h]
        simp [ParseErr.addr, hv]
    | ok _ =>
      rw [hv] at h
      by_cases hg : (splitN2 v).length = 0 ∨ (splitN2 v).head? ≠ some "username"
      · rw [if_pos hg] at h
        simp only [Option.some.injEq, Except.error.injEq] at h
        refine ⟨v, ?_, .inr ?_⟩
        · rw [← h]
          exact List.mem_cons_self _ _
        · intro rest hrv
          have : splitN2 v = ["username", rest] := splitN2_two_iff.mpr hrv
          rcases hg with hg0 | hgh
          · rw [this] at hg0; simp at hg0
          · rw [this] at hgh; simp at hgh
      · rw [if_neg hg] at h
        rcases splitN2_cases v with ⟨b, hb⟩ | ⟨b, a', hba⟩
        · rw [hb] at h; simp at h
        · rw [hba] at h
          simp only [List.getElem?_cons_succ, List.getElem?_cons_zero] at h
          cases hrest : parseHosts lk rest with
          | none => rw [hrest] at h; simp at h
          | some res =>
            rw [hrest] at h
            cases res with
            | error e' =>
              simp only [Option.some.injEq, Except.error.injEq] at h
              subst h
              obtain ⟨v', hv', hoff⟩ := ih hrest
              exact ⟨v', List.mem_cons_of_mem _ hv', hoff⟩
            | ok hs' => simp at h

/-- Helper: a single entry with a valid address and a value of the shape
`username=<u>` is accepted, producing the one descriptor. -/
theorem parseHosts_singleton_accepts {lk : Dns} {a v u : String}
    (hva : validateAddress lk a = .ok ())
    (hvu : v = "username=" ++ u) :
    parseHosts lk [(a, v)] = some (.ok [⟨a, u⟩]) := by
  have hs2 : splitN2 v = ["username", u] := splitN2_two_iff.mpr hvu
  unfold parseHosts
  rw [hva, hs2]
  rw [if_neg (by simp)]
  simp [parseHosts]

/-- C5 (amended): an entry's value is accepted iff it is `username=` followed
by the username — the first `=`-token must literally be `username`, but the
remainder may itself contain further `=` characters (`SplitN(..., 2)` splits
only at the first `=`).  Any entry whose value lacks that shape, or whose
key fails address validation, prevents the whole pass from parsing; a
returned parse error identifies the address of an offending entry.  (The
value exactly equal to `username` crashes instead of erroring — see C10.) -/
theorem wmco_c5_parse_hosts_amended :
    (∀ (lk : Dns) (a v u : String),
      parseHosts lk [(a, v)] = some (.ok [⟨a, u⟩]) ↔
        (validateAddress lk a = .ok () ∧ v = "username=" ++ u)) ∧
    (∀ (lk : Dns) (data : List (String × String)) (a v : String),
      (a, v) ∈ data → (∀ rest, v ≠ "username=" ++ rest) →
      ∀ hs, parseHosts lk data ≠ some (.ok hs)) ∧
    (∀ (lk : Dns) (data : List (String × String)) (a v : String),
      (a, v) ∈ data → validateAddress lk a ≠ .ok () →
      ∀ hs, parseHosts lk data ≠ some (.ok hs)) ∧
    (∀ (lk : Dns) (data : List (String × String)) (e : ParseErr),
      parseHosts lk data = some (.error e) →
      ∃ v, (e.addr, v) ∈ data ∧
        (validateAddress lk e.addr ≠ .ok () ∨ ∀ rest, v ≠ "username=" ++ rest)) := by
  refine ⟨?_, ?_, ?_, fun lk data e h => parseHosts_error_entry h⟩
  · intro lk a v u
    constructor
    · intro h
      obtain ⟨hva, rest, hrest⟩ :=
        parseHosts_ok_entries h (a, v) (List.mem_cons_self _ _)
      have hva' : validateAddress lk a = .ok () := hva
      have hrest' : v = "username=" ++ rest := hrest
      refine ⟨hva', ?_⟩
      have h2 := (parseHosts_singleton_accepts hva' hrest').symm.trans h
      simp only [Option.some.injEq, Except.ok.injEq, List.cons.injEq,
        InstanceInfo.mk.injEq] at h2
      rw [hrest', h2.1.2]
    · rintro ⟨hva, hvu⟩
      exact parseHosts_singleton_accepts hva hvu
  · intro lk data a v hmem hbad hs h
    obtain ⟨_, rest, hrest⟩ := parseHosts_ok_entries h (a, v) hmem
    exact hbad rest hrest
  · intro lk data a v hmem hbad hs h
    obtain ⟨hva, _⟩ := parseHosts_ok_entries h (a, v) hmem
    exact hbad hva

/-- Counterexample refuting C5 as stated: the value `username=a=b` contains
two `=` characters, not exactly one, yet parsing accepts it (with username
`a=b`), because `SplitN(data, "=", 2)` only splits at the first `=`. -/
theorem wmco_c5_counterexample :
    ("username=a=b").toList.count '=' = 2 ∧
    parseHosts dnsOne [("10.0.0.5", "username=a=b")] =
      some (.ok [⟨"10.0.0.5", "a=b"⟩]) := by decide

/-- Witness for C5 at a concrete well-formed entry. -/
theorem wmco_c5_parse_hosts_amended_witness :
    parseHosts dnsOne [("10.0.0.5", "username=admin")] =
      some (.ok [⟨"10.0.0.5", "admin"⟩]) :=
  (wmco_c5_parse_hosts_amended.1 dnsOne "10.0.0.5" "username=admin" "admin").mpr
    ⟨by decide, by decide⟩

/-- Helper: both branches of the per-host decision target the host's own
address. -/
theorem hostDecision_tgt (h : InstanceInfo) (nodes : List Node) :
    (hostDecision h nodes).tgt = Sum.inl h.address := by
  unfold hostDecision
  cases instanceSkips h nodes <;> rfl

/-- C1 (amended): in a pass that is not the empty-empty short-circuit, the
decision targets are exactly the desired addresses followed by the names of
the marker-present nodes with no address-matching desired host — with the
caveats the counterexample forces: the deconfigure phase targets every node
whose membership marker is *present* (any value), not only the marker-true
`ActualSet`, while the short-circuit test uses marker-true nodes.  Under
address/name uniqueness each object is targeted exactly once. -/
theorem wmco_c1_coverage_amended (hosts : List InstanceInfo) (nodes : List Node) :
    (hosts = [] ∧ byohTrueNodes nodes = [] → passActions hosts nodes = []) ∧
    (¬(hosts = [] ∧ byohTrueNodes nodes = []) →
      (passActions hosts nodes).map Action.tgt =
        hosts.map (fun h => Sum.inl h.address) ++
          (staleNodes hosts nodes).map fun n => Sum.inr n.name) ∧
    ((hosts.map (·.address)).Nodup → (nodes.map (·.name)).Nodup →
      ((passActions hosts nodes).map Action.tgt).Nodup) := by
  have hmain : ¬(hosts = [] ∧ byohTrueNodes nodes = []) →
      (passActions hosts nodes).map Action.tgt =
        hosts.map (fun h => Sum.inl h.address) ++
          (staleNodes hosts nodes).map fun n => Sum.inr n.name := by
    intro hne
    unfold passActions
    rw [if_neg hne, List.map_append, List.map_map, List.map_map]
    congr 1
    exact List.map_congr_left fun h _ => hostDecision_tgt h nodes
  refine ⟨fun he => by simp [passActions, he.1, he.2], hmain, ?_⟩
  intro hA hN
  by_cases hne : hosts = [] ∧ byohTrueNodes nodes = []
  · simp [passActions, hne.1, hne.2]
  · rw [hmain hne]
    refine List.Nodup.append ?_ ?_ ?_
    · rw [show (fun h : InstanceInfo => Sum.inl (β := String) h.address) =
        (Sum.inl ∘ fun h : InstanceInfo => h.address) from rfl, ← List.map_map]
      exact hA.map Sum.inl_injective
    · rw [show (fun n : Node => Sum.inr (α := String) n.name) =
        (Sum.inr ∘ fun n : Node => n.name) from rfl, ← List.map_map]
      refine List.Nodup.map Sum.inr_injective ?_
      exact ((List.filter_sublist nodes).map fun n : Node => n.name).nodup hN
    · intro x hx hy
      obtain ⟨h1, -, hx1⟩ := List.mem_map.mp hx
      obtain ⟨n1, -, hy1⟩ := List.mem_map.mp hy
      rw [← hx1] at hy1
      simp at hy1

/-- Counterexample refuting C1 as stated: with desired set `{10.0.0.5}` and
a single node `nf` whose membership marker is present with value `false`
(so the `ActualSet` of marker-true members is empty), the pass emits a
Deconfigure decision targeting `nf` — an object outside `D ∪ A`. -/
theorem wmco_c1_counterexample :
    passActions [⟨"10.0.0.5", "admin"⟩] [⟨"nf", [(byohKey, "false")], ["10.0.0.9"]⟩] =
      [.configure "10.0.0.5", .deconfigure "nf"] ∧
    byohTrueNodes [⟨"nf", [(byohKey, "false")], ["10.0.0.9"]⟩] = [] := by decide

/-- Witness for C1 at a concrete one-host, one-stale-node pass. -/
theorem wmco_c1_coverage_amended_witness :
    passActions [] [] = [] ∧
    ((passActions [⟨"10.0.0.5", "admin"⟩] [⟨"m1", [(byohKey, "true")], ["10.0.0.1"]⟩]).map
        Action.tgt =
      [(⟨"10.0.0.5", "admin"⟩ : InstanceInfo)].map (fun h => Sum.inl h.address) ++
        (staleNodes [⟨"10.0.0.5", "admin"⟩]
            [⟨"m1", [(byohKey, "true")], ["10.0.0.1"]⟩]).map fun n => Sum.inr n.name) ∧
    ((passActions [⟨"10.0.0.5", "admin"⟩]
        [⟨"m1", [(byohKey, "true")], ["10.0.0.1"]⟩]).map Action.tgt).Nodup :=
  ⟨(wmco_c1_coverage_amended [] []).1 ⟨rfl, rfl⟩,
   (wmco_c1_coverage_amended _ _).2.1 (by decide),
   (wmco_c1_coverage_amended _ _).2.2 (by decide) (by decide)⟩

/-- Helper: every event of the configure loop is a `configureInstance` call
for a desired host that the skip decision did not cover. -/
theorem configureLoop_events (env : Env) (nodes : List Node) :
    ∀ hs : List InstanceInfo, ∀ ev ∈ (configureLoop env nodes hs).1,
      ∃ h' ∈ hs, ev = .configure h'.address h'.username ∧
        instanceSkips h' nodes = false := by
  intro hs
  induction hs with
  | nil => intro ev hev; simp [configureLoop] at hev
  | cons h rest ih =>
    intro ev hev
    simp only [configureLoop] at hev
    by_cases hskip : instanceSkips h nodes
    · rw [if_pos hskip] at hev
      obtain ⟨h', hm, he⟩ := ih ev hev
      exact ⟨h', List.mem_cons_of_mem h hm, he⟩
    · rw [if_neg hskip] at hev
      by_cases hok : env.configureOk h.address
      · rw [if_pos hok] at hev
        rcases List.mem_cons.mp hev with hh | ht
        · exact ⟨h, List.mem_cons_self h rest, hh,
            Bool.not_eq_true _ ▸ eq_false_of_ne_true hskip⟩
        · obtain ⟨h', hm, he⟩ := ih ev ht
          exact ⟨h', List.mem_cons_of_mem h hm, he⟩
      · rw [if_neg hok] at hev
        rcases List.mem_cons.mp hev with hh | ht
        · exact ⟨h, List.mem_cons_self h rest, hh,
            Bool.not_eq_true _ ▸ eq_false_of_ne_true hskip⟩
        · simp at ht

/-- Helper: every event of the deconfigure loop is a `deconfigureInstance`
call for a listed node that is marker-present and has no associated
instance. -/
theorem deconfigureInstances_events (env : Env) (hosts : List InstanceInfo) :
    ∀ ns : List Node, ∀ ev ∈ (deconfigureInstances env hosts ns).1,
      ∃ n ∈ ns, ev = .deconfigure n.name ∧ byohPresent n = true ∧
        hasAssociatedInstance n hosts = false := by
  intro ns
  induction ns with
  | nil => intro ev hev; simp [deconfigureInstances] at hev
  | cons node rest ih =>
    intro ev hev
    simp only [deconfigureInstances] at hev
    by_cases hpres : byohPresent node
    · rw [if_neg (by simp [hpres])] at hev
      by_cases hassoc : hasAssociatedInstance node hosts
      · rw [if_pos hassoc] at hev
        obtain ⟨n', hm, he⟩ := ih ev hev
        exact ⟨n', List.mem_cons_of_mem node hm, he⟩
      · rw [if_neg hassoc] at hev
        by_cases hok : env.deconfigureOk node.name
        · rw [if_pos hok] at hev
          rcases List.mem_cons.mp hev with hh | ht
          · exact ⟨node, List.mem_cons_self node rest, hh, hpres,
              Bool.not_eq_true _ ▸ eq_false_of_ne_true hassoc⟩
          · obtain ⟨n', hm, he⟩ := ih ev ht
            exact ⟨n', List.mem_cons_of_mem node hm, he⟩
        · rw [if_neg hok] at hev
          rcases List.mem_cons.mp hev with hh | ht
          · exact ⟨node, List.mem_cons_self node rest, hh, hpres,
              Bool.not_eq_true _ ▸ eq_false_of_ne_true hassoc⟩
          · simp at ht
    · rw [if_pos (by simp [hpres])] at hev
      obtain ⟨n', hm, he⟩ := ih ev hev
      exact ⟨n', List.mem_cons_of_mem node hm, he⟩

/-- Helper: the shape of a pass once its hosts have parsed. -/
theorem reconcileNodes_eq {env : Env} {configMapData : List (String × String)}
    {nodes : List Node} {hosts : List InstanceInfo}
    (hp : parseHosts env.lookup configMapData = some (.ok hosts)) :
    reconcileNodes env configMapData nodes =
      some (reconcileNodesBody env hosts nodes) := by
  unfold reconcileNodes
  rw [hp]

/-- Helper: every event of a pass is the signer load, the Prometheus call,
an event of the configure loop, or an event of the deconfigure loop. -/
theorem reconcileNodesBody_events (env : Env) (hosts : List InstanceInfo)
    (nodes : List Node) :
    ∀ ev ∈ (reconcileNodesBody env hosts nodes).1,
      ev = .signerCreate ∨ ev = .prometheusConfigure ∨
        ev ∈ (configureLoop env nodes hosts).1 ∨
        ev ∈ (deconfigureInstances env hosts nodes).1 := by
  intro ev hev
  unfold reconcileNodesBody at hev
  by_cases hee : hosts = [] ∧ byohTrueNodes nodes = []
  · rw [if_pos hee] at hev
    simp at hev
  · rw [if_neg hee] at hev
    cases hsig : env.signerOk with
    | false =>
      rw [hsig] at hev
      simp at hev
      exact .inl hev
    | true =>
      rw [hsig] at hev
      simp only [Bool.not_true, Bool.false_eq_true, if_false] at hev
      cases hc2 : (configureLoop env nodes hosts).2 with
      | some e =>
        rw [hc2] at hev
        rcases List.mem_cons.mp hev with h | h
        · exact .inl h
        · exact .inr (.inr (.inl h))
      | none =>
        rw [hc2] at hev
        cases hd2 : (deconfigureInstances env hosts nodes).2 with
        | some e =>
          rw [hd2] at hev
          rcases List.mem_cons.mp hev with h | ht
          · exact .inl h
          · rcases List.mem_append.mp ht with h1 | h2
            · exact .inr (.inr (.inl h1))
            · exact .inr (.inr (.inr h2))
        | none =>
          rw [hd2] at hev
          have hev2 : ev ∈ Ev.signerCreate :: (configureLoop env nodes hosts).1 ++
              (deconfigureInstances env hosts nodes).1 ++ [Ev.prometheusConfigure] := by
            cases hpro : env.prometheusOk with
            | true =>
              rw [hpro] at hev
              simpa using hev
            | false =>
              rw [hpro] at hev
              simpa using hev
          rcases List.mem_cons.mp hev2 with h | ht
          · exact .inl h
          · rcases List.mem_append.mp ht with h12 | h3
            · rcases List.mem_append.mp h12 with h1 | h2
              · exact .inr (.inr (.inl h1))
              · exact .inr (.inr (.inr h2))
            · exact .inr (.inl (List.mem_singleton.mp h3))

/-- Helper: every `configureInstance` call of a whole pass targets a parsed
host that the skip decision did not cover. -/
theorem reconcileNodes_configure_events {env : Env}
    {configMapData : List (String × String)} {nodes : List Node}
    {hosts : List InstanceInfo} {evs : List Ev} {r : Except RErr Unit}
    (hp : parseHosts env.lookup configMapData = some (.ok hosts))
    (hrec : reconcileNodes env configMapData nodes = some (evs, r)) :
    ∀ a u, Ev.configure a u ∈ evs →
      ∃ h' ∈ hosts, a = h'.address ∧ instanceSkips h' nodes = false := by
  intro a u hev
  rw [reconcileNodes_eq hp] at hrec
  simp only [Option.some.injEq] at hrec
  have hevs : Ev.configure a u ∈ (reconcileNodesBody env hosts nodes).1 := by
    rw [hrec]
    exact hev
  rcases reconcileNodesBody_events env hosts nodes _ hevs with h | h | h | h
  · simp at h
  · simp at h
  · obtain ⟨h', hm, he, hsk⟩ := configureLoop_events env nodes hosts _ h
    injection he with he1 he2
    exact ⟨h', hm, he1, hsk⟩
  · obtain ⟨n', -, he, -⟩ := deconfigureInstances_events env hosts nodes _ h
    simp at he

/-- C4 (amended): if the *first* cluster member (in scan order, among all
members, not only marker-true ones) whose addresses contain the host's
address carries the version annotation, then the pass emits Skip for that
host and `configureInstance` is never invoked for its address in that pass
(host addresses are unique, as keys of the ConfigMap record). -/
theorem wmco_c4_skip_amended (env : Env) (configMapData : List (String × String))
    (nodes : List Node) (hosts : List InstanceInfo) (h : InstanceInfo) (n : Node)
    (hp : parseHosts env.lookup configMapData = some (.ok hosts))
    (hmem : h ∈ hosts)
    (hfind : findNode h.address nodes = some n)
    (hver : hasVersionAnn n = true)
    (hnodup : (hosts.map (·.address)).Nodup) :
    Action.skip h.address ∈ passActions hosts nodes ∧
    Action.configure h.address ∉ passActions hosts nodes ∧
    ∀ evs r, reconcileNodes env configMapData nodes = some (evs, r) →
      ∀ u, Ev.configure h.address u ∉ evs := by
  have hskips : instanceSkips h nodes = true := by
    unfold instanceSkips
    rw [hfind]
    exact hver
  have hne : ¬(hosts = [] ∧ byohTrueNodes nodes = []) := fun hee =>
    List.ne_nil_of_mem hmem hee.1
  refine ⟨?_, ?_, ?_⟩
  · unfold passActions
    rw [if_neg hne]
    refine List.mem_append_left _ (List.mem_map.mpr ⟨h, hmem, ?_⟩)
    simp [hostDecision, hskips]
  · intro hc
    unfold passActions at hc
    rw [if_neg hne] at hc
    rcases List.mem_append.mp hc with h1 | h2
    · obtain ⟨h', hm', he'⟩ := List.mem_map.mp h1
      unfold hostDecision at he'
      by_cases hs' : instanceSkips h' nodes
      · rw [if_pos hs'] at he'
        simp at he'
      · rw [if_neg hs'] at he'
        injection he' with he''
        rw [List.inj_on_of_nodup_map hnodup hm' hmem he''] at hs'
        exact hs' hskips
    · obtain ⟨n', hm', he'⟩ := List.mem_map.mp h2
      simp at he'
  · intro evs r hrec u hin
    obtain ⟨h', hm', ha', hsk'⟩ := reconcileNodes_configure_events hp hrec _ _ hin
    rw [← List.inj_on_of_nodup_map hnodup hmem hm' ha'] at hsk'
    rw [hskips] at hsk'
    simp at hsk'

/-- Counterexample refuting C4 as stated: some member (`n2`) has address
`10.0.0.5` and carries the version annotation, yet the pass emits Configure
(not Skip) for the host with that address, because `findNode` returns the
first matching member `n1`, which lacks the annotation. -/
theorem wmco_c4_counterexample :
    (∃ n ∈ [(⟨"n1", [], ["10.0.0.5"]⟩ : Node),
        ⟨"n2", [(versionKey, "v")], ["10.0.0.5"]⟩],
      "10.0.0.5" ∈ n.addresses ∧ hasVersionAnn n = true) ∧
    passActions [⟨"10.0.0.5", "admin"⟩]
      [⟨"n1", [], ["10.0.0.5"]⟩, ⟨"n2", [(versionKey, "v")], ["10.0.0.5"]⟩] =
      [.configure "10.0.0.5"] ∧
    Action.skip "10.0.0.5" ∉ passActions [⟨"10.0.0.5", "admin"⟩]
      [⟨"n1", [], ["10.0.0.5"]⟩, ⟨"n2", [(versionKey, "v")], ["10.0.0.5"]⟩] := by
  decide

/-- Witness for C4 at a concrete pass whose one host matches a
version-annotated node. -/
theorem wmco_c4_skip_amended_witness :
    Action.skip "10.0.0.5" ∈ passActions [⟨"10.0.0.5", "admin"⟩]
      [⟨"n0", [(versionKey, "v")], ["10.0.0.5"]⟩] ∧
    Action.configure "10.0.0.5" ∉ passActions [⟨"10.0.0.5", "admin"⟩]
      [⟨"n0", [(versionKey, "v")], ["10.0.0.5"]⟩] ∧
    ∀ evs r, reconcileNodes envAllOk [("10.0.0.5", "username=admin")]
        [⟨"n0", [(versionKey, "v")], ["10.0.0.5"]⟩] = some (evs, r) →
      ∀ u, Ev.configure "10.0.0.5" u ∉ evs :=
  wmco_c4_skip_amended envAllOk [("10.0.0.5", "username=admin")]
    [⟨"n0", [(versionKey, "v")], ["10.0.0.5"]⟩] [⟨"10.0.0.5", "admin"⟩]
    ⟨"10.0.0.5", "admin"⟩ ⟨"n0", [(versionKey, "v")], ["10.0.0.5"]⟩
    (by decide) (by decide) (by decide) (by decide) (by decide)

/-- Helper: the configure loop on a desired list whose first failing host is
`hf` (everything before it skips or succeeds, `hf` neither skips nor
succeeds) stops at `hf`: the loop's error wraps `hf`'s address and every
call it made was for a host at or before `hf`. -/
theorem configureLoop_failfast (env : Env) (nodes : List Node) :
    ∀ (pre : List InstanceInfo) (hf : InstanceInfo) (post : List InstanceInfo),
    (∀ h' ∈ pre, instanceSkips h' nodes = true ∨ env.configureOk h'.address = true) →
    instanceSkips hf nodes = false → env.configureOk hf.address = false →
    (configureLoop env nodes (pre ++ hf :: post)).2 =
      some (.configureErr hf.address) ∧
    ∀ ev ∈ (configureLoop env nodes (pre ++ hf :: post)).1,
      ∃ h' ∈ pre ++ [hf], ev = .configure h'.address h'.username := by
  intro pre
  induction pre with
  | nil =>
    intro hf post hpre hskip hfail
    simp only [List.nil_append, configureLoop]
    rw [if_neg (by simp [hskip]), if_neg (by simp [hfail])]
    refine ⟨rfl, fun ev hev => ?_⟩
    rcases List.mem_cons.mp hev with hh | ht
    · exact ⟨hf, by simp, hh⟩
    · simp at ht
  | cons h0 pre' ih =>
    intro hf post hpre hskip hfail
    have h0ok := hpre h0 (List.mem_cons_self _ _)
    obtain ⟨ih1, ih2⟩ := ih hf post
      (fun h' hm => hpre h' (List.mem_cons_of_mem _ hm)) hskip hfail
    have hlift : ∀ ev, (∃ h' ∈ pre' ++ [hf], ev = Ev.configure h'.address h'.username) →
        ∃ h' ∈ (h0 :: pre') ++ [hf], ev = Ev.configure h'.address h'.username := by
      rintro ev ⟨h', hm', he'⟩
      exact ⟨h', List.mem_cons_of_mem h0 hm', he'⟩
    simp only [List.cons_append, configureLoop]
    by_cases hsk0 : instanceSkips h0 nodes
    · rw [if_pos hsk0]
      exact ⟨ih1, fun ev hev => hlift ev (ih2 ev hev)⟩
    · rcases h0ok with hsk0' | hok0
      · exact absurd hsk0' hsk0
      · rw [if_neg hsk0, if_pos hok0]
        refine ⟨ih1, fun ev hev => ?_⟩
        rcases List.mem_cons.mp hev with hh | ht
        · exact ⟨h0, List.mem_cons_self _ _, hh⟩
        · exact hlift ev (ih2 ev ht)

/-- C2: in a pass whose parsed desired set is `pre ++ hf :: post`, where
every host of `pre` skips or configures successfully and `hf`'s
`configureInstance` fails, the pass aborts with the error wrapping `hf`'s
address; every configure call made was for a host at or before `hf` (the
hosts of `post` are never attempted), no deconfigure call is made (the
deconfigure phase is not entered), and Prometheus is not configured. -/
theorem wmco_c2_failfast_configure (env : Env)
    (configMapData : List (String × String)) (nodes : List Node)
    (pre post : List InstanceInfo) (hf : InstanceInfo)
    (hp : parseHosts env.lookup configMapData = some (.ok (pre ++ hf :: post)))
    (hsig : env.signerOk = true)
    (hpre : ∀ h' ∈ pre, instanceSkips h' nodes = true ∨ env.configureOk h'.address = true)
    (hskip : instanceSkips hf nodes = false)
    (hfail : env.configureOk hf.address = false) :
    ∃ evs, reconcileNodes env configMapData nodes =
        some (evs, .error (.configureErr hf.address)) ∧
      (∀ ev ∈ evs, ev = .signerCreate ∨
        ∃ h' ∈ pre ++ [hf], ev = .configure h'.address h'.username) ∧
      (∀ nodeName, Ev.deconfigure nodeName ∉ evs) ∧
      Ev.prometheusConfigure ∉ evs := by
  obtain ⟨hres, hevsmem⟩ := configureLoop_failfast env nodes pre hf post hpre hskip hfail
  have hne : ¬(pre ++ hf :: post = [] ∧ byohTrueNodes nodes = []) := by
    intro hee
    have := hee.1
    simp at this
  refine ⟨Ev.signerCreate :: (configureLoop env nodes (pre ++ hf :: post)).1,
    ?_, ?_, ?_, ?_⟩
  · rw [reconcileNodes_eq hp]
    unfold reconcileNodesBody
    rw [if_neg hne, hsig]
    simp only [Bool.not_true, Bool.false_eq_true, if_false]
    rw [hres]
  · intro ev hev
    rcases List.mem_cons.mp hev with hh | ht
    · exact .inl hh
    · exact .inr (hevsmem ev ht)
  · intro nodeName hin
    rcases List.mem_cons.mp hin with hh | ht
    · simp at hh
    · obtain ⟨h', -, he'⟩ := hevsmem _ ht
      simp at he'
  · intro hin
    rcases List.mem_cons.mp hin with hh | ht
    · simp at hh
    · obtain ⟨h', -, he'⟩ := hevsmem _ ht
      simp at he'

/-- Witness for C2: two desired hosts; the first configures successfully,
the second fails, so the pass's trace is exactly the signer load and the
two configure attempts, the error wraps `10.0.0.6`, and no deconfigure or
Prometheus call happens. -/
theorem wmco_c2_failfast_configure_witness :
    ∃ evs, reconcileNodes envConfFail
        [("10.0.0.5", "username=a"), ("10.0.0.6", "username=b")] [] =
        some (evs, .error (.configureErr "10.0.0.6")) ∧
      (∀ ev ∈ evs, ev = .signerCreate ∨
        ∃ h' ∈ [(⟨"10.0.0.5", "a"⟩ : InstanceInfo)] ++ [⟨"10.0.0.6", "b"⟩],
          ev = .configure h'.address h'.username) ∧
      (∀ nodeName, Ev.deconfigure nodeName ∉ evs) ∧
      Ev.prometheusConfigure ∉ evs :=
  wmco_c2_failfast_configure envConfFail
    [("10.0.0.5", "username=a"), ("10.0.0.6", "username=b")] []
    [⟨"10.0.0.5", "a"⟩] [] ⟨"10.0.0.6", "b"⟩
    (by decide) (by decide) (by decide) (by decide) (by decide)

/-- C3 (amended): the deconfigure phase stops at its first failure: on a
node list `pre ++ nf :: post` where every node of `pre` is passed over or
deconfigures successfully and stale member `nf`'s deconfigure fails, the
phase returns the error wrapping `nf`'s name and every deconfigure call
made was for a node at or before `nf` — the stale members of `post` are not
attempted. -/
theorem wmco_c3_deconfigure_stops_amended (env : Env) (hosts : List InstanceInfo) :
    ∀ (pre : List Node) (nf : Node) (post : List Node),
    (∀ n' ∈ pre, byohPresent n' = false ∨ hasAssociatedInstance n' hosts = true ∨
      env.deconfigureOk n'.name = true) →
    byohPresent nf = true → hasAssociatedInstance nf hosts = false →
    env.deconfigureOk nf.name = false →
    (deconfigureInstances env hosts (pre ++ nf :: post)).2 =
      some (.deconfigureErr nf.name) ∧
    ∀ ev ∈ (deconfigureInstances env hosts (pre ++ nf :: post)).1,
      ∃ n' ∈ pre ++ [nf], ev = .deconfigure n'.name := by
  intro pre
  induction pre with
  | nil =>
    intro nf post hpre hpres hassoc hfail
    simp only [List.nil_append, deconfigureInstances]
    rw [if_neg (by simp [hpres]), if_neg (by simp [hassoc]),
      if_neg (by simp [hfail])]
    refine ⟨rfl, fun ev hev => ?_⟩
    rcases List.mem_cons.mp hev with hh | ht
    · exact ⟨nf, by simp, hh⟩
    · simp at ht
  | cons n0 pre' ih =>
    intro nf post hpre hpres hassoc hfail
    have h0ok := hpre n0 (List.mem_cons_self _ _)
    obtain ⟨ih1, ih2⟩ := ih nf post
      (fun n' hm => hpre n' (List.mem_cons_of_mem _ hm)) hpres hassoc hfail
    have hlift : ∀ ev, (∃ n' ∈ pre' ++ [nf], ev = Ev.deconfigure n'.name) →
        ∃ n' ∈ (n0 :: pre') ++ [nf], ev = Ev.deconfigure n'.name := by
      rintro ev ⟨n', hm', he'⟩
      exact ⟨n', List.mem_cons_of_mem n0 hm', he'⟩
    simp only [List.cons_append, deconfigureInstances]
    by_cases hpres0 : byohPresent n0
    · rw [if_neg (by simp [hpres0])]
      by_cases hassoc0 : hasAssociatedInstance n0 hosts
      · rw [if_pos hassoc0]
        exact ⟨ih1, fun ev hev => hlift ev (ih2 ev hev)⟩
      · rw [if_neg hassoc0]
        rcases h0ok with hp0 | ha0 | hd0
        · exact absurd hp0 (by simp [hpres0])
        · exact absurd ha0 hassoc0
        · rw [if_pos hd0]
          refine ⟨ih1, fun ev hev => ?_⟩
          rcases List.mem_cons.mp hev with hh | ht
          · exact ⟨n0, List.mem_cons_self _ _, hh⟩
          · exact hlift ev (ih2 ev ht)
    · rw [if_pos (by simp [hpres0])]
      exact ⟨ih1, fun ev hev => hlift ev (ih2 ev hev)⟩

/-- Counterexample refuting C3 as stated: two stale members `m1`, `m2` with
distinct addresses and names; `m1`'s deconfigure fails and `m2`'s
deconfigure is *not* attempted — the pass's whole trace is the signer load
and the single deconfigure call for `m1`. -/
theorem wmco_c3_counterexample :
    reconcileNodes envDeconFail []
      [⟨"m1", [(byohKey, "true")], ["10.0.0.1"]⟩,
        ⟨"m2", [(byohKey, "true")], ["10.0.0.2"]⟩] =
      some ([.signerCreate, .deconfigure "m1"], .error (.deconfigureErr "m1")) ∧
    byohPresent ⟨"m2", [(byohKey, "true")], ["10.0.0.2"]⟩ = true ∧
    hasAssociatedInstance ⟨"m2", [(byohKey, "true")], ["10.0.0.2"]⟩ [] = false := by
  decide

/-- Witness for C3 at the concrete two-stale-member deconfigure phase. -/
theorem wmco_c3_deconfigure_stops_amended_witness :
    (deconfigureInstances envDeconFail []
        ([] ++ ⟨"m1", [(byohKey, "true")], ["10.0.0.1"]⟩ ::
          [⟨"m2", [(byohKey, "true")], ["10.0.0.2"]⟩])).2 =
      some (.deconfigureErr "m1") ∧
    ∀ ev ∈ (deconfigureInstances envDeconFail []
        ([] ++ ⟨"m1", [(byohKey, "true")], ["10.0.0.1"]⟩ ::
          [⟨"m2", [(byohKey, "true")], ["10.0.0.2"]⟩])).1,
      ∃ n' ∈ [] ++ [(⟨"m1", [(byohKey, "true")], ["10.0.0.1"]⟩ : Node)],
        ev = .deconfigure n'.name :=
  wmco_c3_deconfigure_stops_amended envDeconFail [] []
    ⟨"m1", [(byohKey, "true")], ["10.0.0.1"]⟩
    [⟨"m2", [(byohKey, "true")], ["10.0.0.2"]⟩]
    (by decide) (by decide) (by decide) (by decide)

end WMCO
